import Mathlib

/-!
Verification development for the `bigmerge` contract/keep registry service
(`contractmgr`), its shared wire types (`franca`, `koine`) and the
command-line client.

The Rust sources are shallowly embedded as follows:

* `uuid::Uuid` values are 128-bit numbers, modelled as `Nat` (all catalog
  uuids and freshly generated keep uuids are below `2 ^ 128`; the random
  generator `Uuid::new_v4` is modelled by passing the generated value as an
  explicit argument).
* `HashMap<Uuid, Keep>` is modelled as an association list with the map
  operations `lookupKeep` / `insertKeep` / `removeKeep` mirroring
  `HashMap::get` / `HashMap::insert` (replace the entry with the same key,
  or add one) / `HashMap::remove`.  `HashMap` iteration order is arbitrary,
  so the list order carries no meaning.
* CBOR serialization (`ciborium`) is an external library dependency with a
  fixed wire contract; a response body is modelled as the decoded value it
  encodes (constructor `Body`), so encode-then-decode is the identity by
  constructor injectivity.
* Each warp handler becomes a pure function from the registry state (plus
  any generated uuid) to a response/state pair.
-/

/-- `koine::Backend`: the closed enumeration of execution backends. -/
inductive Backend
  | Nil
  | Sev
  | Sgx
  | Kvm
deriving DecidableEq

/-- `koine::Contract`: a claimable descriptor, identity plus backend. -/
structure Contract where
  uuid : Nat
  backend : Backend
deriving DecidableEq

/-- `franca::Keep`: a keep record, identity plus an owned copy of the
contract it was claimed against. -/
structure Keep where
  uuid : Nat
  contract : Contract
deriving DecidableEq

/-- The fixed contract catalog `CONTRACTS` of `contractmgr/src/main.rs`
(lines 56-73), in source order. -/
def CONTRACTS : List Contract :=
  [ { uuid := 0xe6234733513a4883981abfa972fa706b, backend := Backend.Nil },
    { uuid := 0x0afa438eacaa41589518ad59256def34, backend := Backend.Kvm },
    { uuid := 0x31a41b53cb9e447bbfa2bfb8e6e42ff9, backend := Backend.Sev },
    { uuid := 0xea392851343542d3a4adc4e5e5c6c4c6, backend := Backend.Sgx } ]

/-- The keep registry `KEEPS : RwLock<HashMap<Uuid, Keep>>`, modelled as an
association list from keep uuid to keep record. -/
abbrev Registry := List (Nat × Keep)

/-- `HashMap::get`: the value stored under key `k`, if any. -/
def lookupKeep : Registry → Nat → Option Keep
  | [], _ => none
  | p :: rest, k => if p.1 = k then some p.2 else lookupKeep rest k

/-- `HashMap::remove`: drop the entry stored under key `k`. -/
def removeKeep : Registry → Nat → Registry
  | [], _ => []
  | p :: rest, k => if p.1 = k then removeKeep rest k else p :: removeKeep rest k

/-- `HashMap::insert`: store `v` under key `k`, replacing any previous
entry with that key. -/
def insertKeep (s : Registry) (k : Nat) (v : Keep) : Registry :=
  (k, v) :: removeKeep s k

/-- A response body: the decoded value carried by the CBOR encoding
produced by `cborize` (serialization is treated as an injective library
primitive, per the spec's scope). -/
inductive Body
  | empty
  | contracts (cs : List Contract)
  | contract (c : Contract)
  | keep (k : Keep)
  | keeps (ks : List Keep)
deriving DecidableEq

/-- An HTTP response as built by the handlers: status code, the optional
`Content-Type` and `Location` headers, and the body. -/
structure HttpResponse where
  status : Nat
  contentType : Option String
  location : Option String
  body : Body
deriving DecidableEq

/-- `error(code)`: a bare response with the given status and empty body
(`contractmgr/src/main.rs` lines 83-85). -/
def error (code : Nat) : HttpResponse :=
  { status := code, contentType := none, location := none, body := Body.empty }

/-- `GET /contracts` (`get_contracts`, lines 94-102): 200 with the full
catalog, CBOR content type; the registry is untouched. -/
def get_contracts (s : Registry) : HttpResponse × Registry :=
  ({ status := 200
     contentType := some ("application/cbor")
     location := none
     body := Body.contracts CONTRACTS }, s)

/-- `GET /contracts/{id}` (`get_contracts_uuid`, lines 105-114): linear
scan of the catalog; 404 when absent, else 200 with the contract. -/
def get_contracts_uuid (cuuid : Nat) (s : Registry) : HttpResponse × Registry :=
  match CONTRACTS.find? (fun c => c.uuid == cuuid) with
  | none => (error 404, s)
  | some contract =>
      ({ status := 200
         contentType := some ("application/cbor")
         location := none
         body := Body.contract contract }, s)

/-- Lower-case hex digit for a value below 16. -/
def hexChar (n : Nat) : Char :=
  if n < 10 then Char.ofNat (Char.toNat ('0') + n)
  else Char.ofNat (Char.toNat ('a') + (n - 10))

/-- Big-endian lower-case hex digits of `n`, padded to `w` digits. -/
def hexDigits : Nat → Nat → List Char
  | 0, _ => []
  | w + 1, n => hexDigits w (n / 16) ++ [hexChar (n % 16)]

/-- The `Display` rendering of a `uuid::Uuid`: lower-case hyphenated
8-4-4-4-12 hex form. -/
def uuidStr (u : Nat) : String :=
  let ds := hexDigits 32 (u % 2 ^ 128)
  String.mk (ds.take 8) ++ "-" ++ String.mk ((ds.drop 8).take 4) ++ "-" ++
    String.mk ((ds.drop 12).take 4) ++ "-" ++ String.mk ((ds.drop 16).take 4) ++ "-" ++
    String.mk (ds.drop 20)

/-- `POST /contracts/{id}` (`post_contracts_uuid`, lines 117-137): look
the contract up; on success mint the keep under the freshly generated
uuid (`Uuid::new_v4`, passed here as the argument `fresh`), insert it,
and answer 201 with a `Location` header and the keep as body. -/
def post_contracts_uuid (cuuid : Nat) (fresh : Nat) (s : Registry) : HttpResponse × Registry :=
  match CONTRACTS.find? (fun c => c.uuid == cuuid) with
  | none => (error 404, s)
  | some contract =>
      let keep : Keep := { uuid := fresh, contract := contract }
      ({ status := 201
         contentType := some ("application/cbor")
         location := some (("/keeps/") ++ uuidStr fresh)
         body := Body.keep keep }, insertKeep s fresh keep)

/-- `GET /keeps` (`get_keeps`, lines 140-149): 200 with a snapshot of all
stored keep values. -/
def get_keeps (s : Registry) : HttpResponse × Registry :=
  ({ status := 200
     contentType := some ("application/cbor")
     location := none
     body := Body.keeps (s.map Prod.snd) }, s)

/-- `GET /keeps/{id}` (`get_keeps_uuid`, lines 152-161): 404 when the id
is absent, else 200 with the stored keep. -/
def get_keeps_uuid (kuuid : Nat) (s : Registry) : HttpResponse × Registry :=
  match lookupKeep s kuuid with
  | none => (error 404, s)
  | some keep =>
      ({ status := 200
         contentType := some ("application/cbor")
         location := none
         body := Body.keep keep }, s)

/-- `DELETE /keeps/{id}` (`delete_keeps_uuid`, lines 164-169):
`HashMap::remove` returns the removed value; `Some` maps to a bare 200,
`None` to a bare 404. -/
def delete_keeps_uuid (kuuid : Nat) (s : Registry) : HttpResponse × Registry :=
  match lookupKeep s kuuid with
  | some _ => (error 200, removeKeep s kuuid)
  | none => (error 404, s)

/-- One server operation, with any value generated inside the handler
(`Uuid::new_v4` for `claim`) made explicit. -/
inductive ServerAction
  | getContracts
  | getContract (cuuid : Nat)
  | claim (cuuid : Nat) (fresh : Nat)
  | listKeeps
  | getKeep (kuuid : Nat)
  | deleteKeep (kuuid : Nat)
deriving DecidableEq

/-- The registry state after one server operation. -/
def step (s : Registry) : ServerAction → Registry
  | ServerAction.getContracts => (get_contracts s).2
  | ServerAction.getContract u => (get_contracts_uuid u s).2
  | ServerAction.claim cu f => (post_contracts_uuid cu f s).2
  | ServerAction.listKeeps => (get_keeps s).2
  | ServerAction.getKeep u => (get_keeps_uuid u s).2
  | ServerAction.deleteKeep u => (delete_keeps_uuid u s).2

/-- The registry state after a sequence of server operations. -/
def steps (s : Registry) (acts : List ServerAction) : Registry :=
  acts.foldl step s

/-- Registry states reachable from the empty initial state (`Lazy::new`
creates `KEEPS` empty) by server operations. -/
inductive Reachable : Registry → Prop
  | empty : Reachable []
  | next (s : Registry) (a : ServerAction) : Reachable s → Reachable (step s a)

/-- An action leaves the keep stored under uuid `k` untouched: it neither
deletes `k` nor claims with a generated uuid colliding with `k`. -/
def preservesKeep (k : Nat) : ServerAction → Bool
  | ServerAction.claim _ f => f != k
  | ServerAction.deleteKeep u => u != k
  | _ => true

/-- The registry invariant: every key is its keep record's own uuid, every
stored contract is a catalog entry, and keys are unique. -/
def RegInv (s : Registry) : Prop :=
  (∀ p ∈ s, p.1 = p.2.uuid ∧ p.2.contract ∈ CONTRACTS) ∧ (s.map Prod.fst).Nodup

/-- Value of a hex digit character, upper or lower case
(`uuid` accepts both cases). -/
def hexVal? (c : Char) : Option Nat :=
  if 48 ≤ c.toNat ∧ c.toNat ≤ 57 then some (c.toNat - 48)
  else if 97 ≤ c.toNat ∧ c.toNat ≤ 102 then some (c.toNat - 97 + 10)
  else if 65 ≤ c.toNat ∧ c.toNat ≤ 70 then some (c.toNat - 65 + 10)
  else none

/-- Fold one character into a running big-endian hex value. -/
def hexAcc : Option Nat → Char → Option Nat
  | none, _ => none
  | some acc, c => (hexVal? c).map (fun d => acc * 16 + d)

/-- Value of a list of hex digit characters, `none` if any is not hex. -/
def hexListVal? (cs : List Char) : Option Nat :=
  cs.foldl hexAcc (some 0)

/-- Strip the `urn:uuid:` prefix accepted by `Uuid::parse_str`, which
recognizes it only at the URN form's total length of 45 characters
(prefix plus the 36-character hyphenated form); at any other length the
input passes through unchanged. -/
def stripUrn (cs : List Char) : List Char :=
  if cs.length = 45 ∧ cs.take 9 = ("urn:uuid:").toList then cs.drop 9 else cs

/-- `Uuid::from_str` (via `Uuid::parse_str`, uuid 0.8): accepts the
32-digit simple form, the 36-character hyphenated 8-4-4-4-12 form, and
the 45-character `urn:uuid:`-prefixed hyphenated form; anything else
fails. -/
def parseUuid (s : String) : Option Nat :=
  let cs := stripUrn s.toList
  if cs.length = 32 then hexListVal? cs
  else if cs.length = 36 then
    if cs[8]? = some ('-') ∧ cs[13]? = some ('-') ∧ cs[18]? = some ('-') ∧ cs[23]? = some ('-') then
      let hx := cs.filter (fun c => c ≠ '-')
      if hx.length = 32 then hexListVal? hx else none
    else none
  else none

/-- HTTP request methods relevant to the route set. -/
inductive Method
  | get
  | post
  | put
  | delete
deriving DecidableEq

/-- Outcome of testing one warp filter chain against a request: the path
matched and the handler ran, or the path did not match (warp rejects with
`not_found`, status 404 — also the rejection of a `Uuid` path parameter
that fails to parse), or the path matched but the method filter rejected
(warp rejects with `MethodNotAllowed`, status 405). -/
inductive RouteOutcome
  | handled (res : HttpResponse × Registry)
  | pathMismatch
  | methodMismatch
deriving DecidableEq

/-- The handler result, when the route handled the request. -/
def RouteOutcome.result? : RouteOutcome → Option (HttpResponse × Registry)
  | RouteOutcome.handled r => some r
  | _ => none

/-- True exactly on `methodMismatch`. -/
def RouteOutcome.isMM : RouteOutcome → Bool
  | RouteOutcome.methodMismatch => true
  | _ => false

/-- True exactly on `handled`. -/
def RouteOutcome.isHandled : RouteOutcome → Bool
  | RouteOutcome.handled _ => true
  | _ => false

/-- Filter `warp::path!("contracts").and(method::get())`. -/
def routeGetContracts (m : Method) (segs : List String) (s : Registry) : RouteOutcome :=
  match segs with
  | [seg] =>
      if seg = ("contracts") then
        if m = Method.get then RouteOutcome.handled (get_contracts s) else RouteOutcome.methodMismatch
      else RouteOutcome.pathMismatch
  | _ => RouteOutcome.pathMismatch

/-- Filter `warp::path!("contracts" / Uuid).and(method::get())`. -/
def routeGetContractsUuid (m : Method) (segs : List String) (s : Registry) : RouteOutcome :=
  match segs with
  | [seg0, seg1] =>
      if seg0 = ("contracts") then
        match parseUuid seg1 with
        | some u =>
            if m = Method.get then RouteOutcome.handled (get_contracts_uuid u s)
            else RouteOutcome.methodMismatch
        | none => RouteOutcome.pathMismatch
      else RouteOutcome.pathMismatch
  | _ => RouteOutcome.pathMismatch

/-- Filter `warp::path!("contracts" / Uuid).and(method::post())`. -/
def routePostContractsUuid (m : Method) (segs : List String) (fresh : Nat) (s : Registry) :
    RouteOutcome :=
  match segs with
  | [seg0, seg1] =>
      if seg0 = ("contracts") then
        match parseUuid seg1 with
        | some u =>
            if m = Method.post then RouteOutcome.handled (post_contracts_uuid u fresh s)
            else RouteOutcome.methodMismatch
        | none => RouteOutcome.pathMismatch
      else RouteOutcome.pathMismatch
  | _ => RouteOutcome.pathMismatch

/-- Filter `warp::path!("keeps").and(method::get())`. -/
def routeGetKeeps (m : Method) (segs : List String) (s : Registry) : RouteOutcome :=
  match segs with
  | [seg] =>
      if seg = ("keeps") then
        if m = Method.get then RouteOutcome.handled (get_keeps s) else RouteOutcome.methodMismatch
      else RouteOutcome.pathMismatch
  | _ => RouteOutcome.pathMismatch

/-- Filter `warp::path!("keeps" / Uuid).and(method::get())`. -/
def routeGetKeepsUuid (m : Method) (segs : List String) (s : Registry) : RouteOutcome :=
  match segs with
  | [seg0, seg1] =>
      if seg0 = ("keeps") then
        match parseUuid seg1 with
        | some u =>
            if m = Method.get then RouteOutcome.handled (get_keeps_uuid u s)
            else RouteOutcome.methodMismatch
        | none => RouteOutcome.pathMismatch
      else RouteOutcome.pathMismatch
  | _ => RouteOutcome.pathMismatch

/-- Filter `warp::path!("keeps" / Uuid).and(method::delete())`. -/
def routeDeleteKeepsUuid (m : Method) (segs : List String) (s : Registry) : RouteOutcome :=
  match segs with
  | [seg0, seg1] =>
      if seg0 = ("keeps") then
        match parseUuid seg1 with
        | some u =>
            if m = Method.delete then RouteOutcome.handled (delete_keeps_uuid u s)
            else RouteOutcome.methodMismatch
        | none => RouteOutcome.pathMismatch
      else RouteOutcome.pathMismatch
  | _ => RouteOutcome.pathMismatch

/-- The six filters in the `or` order of `routes` (lines 171-176). -/
def routeOutcomes (m : Method) (segs : List String) (fresh : Nat) (s : Registry) :
    List RouteOutcome :=
  [ routeGetContracts m segs s,
    routeGetContractsUuid m segs s,
    routePostContractsUuid m segs fresh s,
    routeGetKeeps m segs s,
    routeGetKeepsUuid m segs s,
    routeDeleteKeepsUuid m segs s ]

/-- Request dispatch, `warp::serve(routes)`: the first filter chain that
matches handles the request.  When none does, warp replies from the
combined rejection; its rejection preference keeps the cause with the
greater status code, so any `MethodNotAllowed` (405) among the rejections
wins over `not_found` (404). -/
def dispatch (m : Method) (segs : List String) (fresh : Nat) (s : Registry) :
    HttpResponse × Registry :=
  match (routeOutcomes m segs fresh s).findSome? RouteOutcome.result? with
  | some r => r
  | none =>
      if (routeOutcomes m segs fresh s).any RouteOutcome.isMM then (error 405, s)
      else (error 404, s)

/-- Errors of the command-line client (`client/src/error.rs`). -/
inductive ClientError
  | reqwest
  | url
  | invalidHeaderValue
deriving DecidableEq

/-- Result of the client's protocol check on a response. -/
inductive CheckResult
  | accepted
  | rejected (e : ClientError)
deriving DecidableEq

/-- `Error::check_header` (`client/src/error.rs` lines 23-35): the client
compares the named header against the exact expected string and refuses
the response (so never reaches decoding) on any difference, including a
missing header. -/
def check_header (got : Option String) (val : String) : CheckResult :=
  if got ≠ some val then CheckResult.rejected ClientError.invalidHeaderValue
  else CheckResult.accepted

/-- The six route handlers, as names. -/
inductive HandlerId
  | getContractsH
  | getContractsUuidH
  | postContractsUuidH
  | getKeepsH
  | getKeepsUuidH
  | deleteKeepsUuidH
deriving DecidableEq

/-- Which `RwLock` guard a handler takes on `KEEPS`. -/
inductive LockAcq
  | readLock
  | writeLock
deriving DecidableEq

/-- How a handler touches the `KEEPS` lock: which guard it acquires, and
whether `cborize` (response-body serialization) runs while the guard is
still alive. -/
structure RegistryAccess where
  acq : LockAcq
  encodeUnderLock : Bool
deriving DecidableEq

/-- Lock usage read off `contractmgr/src/main.rs`, handler by handler
(`none` for the contract handlers, which never touch `KEEPS`):

* `post_contracts_uuid` (line 128): `KEEPS.write()` in a statement of its
  own, so the guard is dropped before the response (and its `cborize`
  call) is built;
* `get_keeps` (line 143): `KEEPS.read()`, collected into a `Vec` in its
  own `let` statement, guard dropped before `cborize`;
* `get_keeps_uuid` (line 154): `KEEPS.write()` as the scrutinee of the
  `match`; a Rust temporary in a match scrutinee lives to the end of the
  whole `match`, and the arm borrows `keep` from the guarded map, so
  `cborize(&keep)` (line 159) runs while the write guard is held;
* `delete_keeps_uuid` (line 166): `KEEPS.write()`, arms return a bare
  status code, nothing is serialized. -/
def registryAccess : HandlerId → Option RegistryAccess
  | HandlerId.getContractsH => none
  | HandlerId.getContractsUuidH => none
  | HandlerId.postContractsUuidH => some { acq := LockAcq.writeLock, encodeUnderLock := false }
  | HandlerId.getKeepsH => some { acq := LockAcq.readLock, encodeUnderLock := false }
  | HandlerId.getKeepsUuidH => some { acq := LockAcq.writeLock, encodeUnderLock := true }
  | HandlerId.deleteKeepsUuidH => some { acq := LockAcq.writeLock, encodeUnderLock := false }

/-- The reader discipline as the spec claims it: the two read-only keep
handlers take only the shared read guard, the two mutating handlers take
the write guard, and no handler serializes while holding its guard. -/
def readerDisciplineClaim : Prop :=
  registryAccess HandlerId.getKeepsH = some { acq := LockAcq.readLock, encodeUnderLock := false } ∧
  registryAccess HandlerId.getKeepsUuidH =
    some { acq := LockAcq.readLock, encodeUnderLock := false } ∧
  registryAccess HandlerId.postContractsUuidH =
    some { acq := LockAcq.writeLock, encodeUnderLock := false } ∧
  registryAccess HandlerId.deleteKeepsUuidH =
    some { acq := LockAcq.writeLock, encodeUnderLock := false }

/-- Address family reported by `getsockname` for a live socket
(`nix::sys::socket::SockAddr`): Unix-domain, internet, or any other. -/
inductive SockAddrKind
  | unixAddr
  | inetAddr
  | otherAddr
deriving DecidableEq

/-- The operating-system facts the resolver consults, passed as an
oracle: what `getsockname(fd)` reports (`none` for an error, e.g. the
descriptor is not a socket), and whether binding a new Unix or TCP
listener at a given string succeeds. -/
structure SysApi where
  getsocknameK : Int → Option SockAddrKind
  unixBindOk : String → Bool
  tcpBindOk : String → Bool

/-- Where a listener came from: adopted from an inherited descriptor
(`from_raw_fd`, no new bind), or freshly bound at an address. -/
inductive SockOrigin
  | inherited (fd : Int)
  | bound (addr : String)
deriving DecidableEq

/-- The `Listener` enum of `contractmgr/src/main.rs` (lines 18-22),
tagged with the origin of the underlying socket. -/
inductive Listener
  | unixL (o : SockOrigin)
  | tcpL (o : SockOrigin)
deriving DecidableEq

/-- `std::io::Error` outcomes the resolver produces: `InvalidInput` (bad
or unsupported descriptor), or a bind failure propagated by `?`. -/
inductive IoErr
  | invalidInput
  | bindFailed
deriving DecidableEq

/-- `Result<Listener, io::Error>` of `Listener::from_str`. -/
inductive ResolveResult
  | ok (l : Listener)
  | err (e : IoErr)
deriving DecidableEq

/-- Decimal value of a digit run, `none` when empty or not all digits. -/
def decDigitsVal? (cs : List Char) : Option Nat :=
  if cs = [] then none
  else cs.foldl (fun acc c =>
    match acc with
    | none => none
    | some n => if 48 ≤ c.toNat ∧ c.toNat ≤ 57 then some (n * 10 + (c.toNat - 48)) else none)
    (some 0)

/-- `RawFd::from_str` = `i32::from_str`: optional sign, one or more
decimal digits, in-range for a 32-bit signed integer. -/
def parseI32 (s : String) : Option Int :=
  match s.toList with
  | ('+') :: rest =>
      (decDigitsVal? rest).bind (fun n => if n ≤ 2147483647 then some (Int.ofNat n) else none)
  | ('-') :: rest =>
      (decDigitsVal? rest).bind (fun n => if n ≤ 2147483648 then some (-(Int.ofNat n)) else none)
  | cs =>
      (decDigitsVal? cs).bind (fun n => if n ≤ 2147483647 then some (Int.ofNat n) else none)

/-- `impl FromStr for Listener` (`contractmgr/src/main.rs` lines 24-47):
if the string parses as a `RawFd` (`i32`), classify the live descriptor
by `getsockname` and adopt it without binding (`InvalidInput` when the
call fails or the family is neither Unix nor Inet); otherwise bind a new
Unix listener when the first character is `/`, else a new TCP listener. -/
def listener_from_str (api : SysApi) (s : String) : ResolveResult :=
  match parseI32 s with
  | some fd =>
      match api.getsocknameK fd with
      | none => ResolveResult.err IoErr.invalidInput
      | some SockAddrKind.unixAddr => ResolveResult.ok (Listener.unixL (SockOrigin.inherited fd))
      | some SockAddrKind.inetAddr => ResolveResult.ok (Listener.tcpL (SockOrigin.inherited fd))
      | some SockAddrKind.otherAddr => ResolveResult.err IoErr.invalidInput
  | none =>
      match s.toList with
      | ('/') :: _ =>
          if api.unixBindOk s then ResolveResult.ok (Listener.unixL (SockOrigin.bound s))
          else ResolveResult.err IoErr.bindFailed
      | _ =>
          if api.tcpBindOk s then ResolveResult.ok (Listener.tcpL (SockOrigin.bound s))
          else ResolveResult.err IoErr.bindFailed

/-- A digit run parsed as a SMALL NON-NEGATIVE integer, following the
claim's words: no sign accepted, same 32-bit magnitude bound. -/
def parseSmallNonNeg (s : String) : Option Nat :=
  (decDigitsVal? s.toList).bind (fun n => if n ≤ 2147483647 then some n else none)

/-- The Socket Origin Resolver exactly as the claim states it: a string
parsing as a small NON-NEGATIVE integer is an inherited descriptor
classified by the live socket's family; otherwise a leading `/` means a
fresh Unix bind; otherwise a host:port TCP bind. -/
def resolverClaim (api : SysApi) (s : String) : ResolveResult :=
  match parseSmallNonNeg s with
  | some fd =>
      match api.getsocknameK (Int.ofNat fd) with
      | none => ResolveResult.err IoErr.invalidInput
      | some SockAddrKind.unixAddr => ResolveResult.ok (Listener.unixL (SockOrigin.inherited (Int.ofNat fd)))
      | some SockAddrKind.inetAddr => ResolveResult.ok (Listener.tcpL (SockOrigin.inherited (Int.ofNat fd)))
      | some SockAddrKind.otherAddr => ResolveResult.err IoErr.invalidInput
  | none =>
      match s.toList with
      | ('/') :: _ =>
          if api.unixBindOk s then ResolveResult.ok (Listener.unixL (SockOrigin.bound s))
          else ResolveResult.err IoErr.bindFailed
      | _ =>
          if api.tcpBindOk s then ResolveResult.ok (Listener.tcpL (SockOrigin.bound s))
          else ResolveResult.err IoErr.bindFailed

/-- The resolver as amended: identical to the claim except that the
descriptor branch is taken for every string parsing as a SIGNED 32-bit
integer (the raw descriptor type), so negative strings also reach the
descriptor-classification step instead of the host:port bind. -/
def resolverAmended (api : SysApi) (s : String) : ResolveResult :=
  match parseI32 s with
  | some fd =>
      match api.getsocknameK fd with
      | some SockAddrKind.unixAddr => ResolveResult.ok (Listener.unixL (SockOrigin.inherited fd))
      | some SockAddrKind.inetAddr => ResolveResult.ok (Listener.tcpL (SockOrigin.inherited fd))
      | _ => ResolveResult.err IoErr.invalidInput
  | none =>
      match s.toList with
      | ('/') :: _ =>
          if api.unixBindOk s then ResolveResult.ok (Listener.unixL (SockOrigin.bound s))
          else ResolveResult.err IoErr.bindFailed
      | _ =>
          if api.tcpBindOk s then ResolveResult.ok (Listener.tcpL (SockOrigin.bound s))
          else ResolveResult.err IoErr.bindFailed

/-- A concrete oracle for counterexamples: no descriptor is a live
socket, every fresh bind succeeds. -/
def sysApi0 : SysApi :=
  { getsocknameK := fun _ => none, unixBindOk := fun _ => true, tcpBindOk := fun _ => true }

/-! ### Map lemmas -/

theorem lookupKeep_removeKeep_self (s : Registry) (k : Nat) :
    lookupKeep (removeKeep s k) k = none := by
  induction s with
  | nil => rfl
  | cons p rest ih =>
      by_cases h : p.1 = k
      · simpa [removeKeep, h] using ih
      · simp [removeKeep, lookupKeep, h, ih]

theorem lookupKeep_removeKeep_ne (s : Registry) (k k2 : Nat) (h : k2 ≠ k) :
    lookupKeep (removeKeep s k) k2 = lookupKeep s k2 := by
  have h' : k ≠ k2 := fun hx => h hx.symm
  induction s with
  | nil => rfl
  | cons p rest ih =>
      by_cases hp : p.1 = k
      · have hp2 : p.1 ≠ k2 := fun hx => h' (hp ▸ hx)
        simp only [removeKeep, if_pos hp, lookupKeep, if_neg hp2]
        exact ih
      · by_cases hq : p.1 = k2
        · simp only [removeKeep, if_neg hp, lookupKeep, if_pos hq]
        · simp only [removeKeep, if_neg hp, lookupKeep, if_neg hq]
          exact ih

theorem lookupKeep_mem (s : Registry) (k : Nat) (v : Keep) (h : lookupKeep s k = some v) :
    (k, v) ∈ s := by
  induction s with
  | nil => simp [lookupKeep] at h
  | cons p rest ih =>
      by_cases hp : p.1 = k
      · simp only [lookupKeep, if_pos hp] at h
        have : p = (k, v) := by
          cases p
          simp_all
        exact this ▸ List.mem_cons_self p rest
      · simp only [lookupKeep, if_neg hp] at h
        exact List.mem_cons_of_mem _ (ih h)

theorem removeKeep_eq_self (s : Registry) (k : Nat) (h : lookupKeep s k = none) :
    removeKeep s k = s := by
  induction s with
  | nil => rfl
  | cons p rest ih =>
      by_cases hp : p.1 = k
      · simp [lookupKeep, hp] at h
      · simp only [lookupKeep, hp, if_neg hp] at h
        simp [removeKeep, hp, ih h]

theorem mem_removeKeep (s : Registry) (k : Nat) (p : Nat × Keep) (h : p ∈ removeKeep s k) :
    p ∈ s ∧ p.1 ≠ k := by
  induction s with
  | nil => simp [removeKeep] at h
  | cons q rest ih =>
      by_cases hq : q.1 = k
      · simp only [removeKeep, if_pos hq] at h
        rcases ih h with ⟨h1, h2⟩
        exact ⟨List.mem_cons_of_mem _ h1, h2⟩
      · simp only [removeKeep, if_neg hq] at h
        rcases List.mem_cons.mp h with h1 | h1
        · exact ⟨List.mem_cons.mpr (Or.inl h1), h1 ▸ hq⟩
        · rcases ih h1 with ⟨h2, h3⟩
          exact ⟨List.mem_cons_of_mem _ h2, h3⟩

theorem removeKeep_sublist (s : Registry) (k : Nat) : (removeKeep s k).Sublist s := by
  induction s with
  | nil => simp [removeKeep]
  | cons q rest ih =>
      by_cases hq : q.1 = k
      · simp only [removeKeep, if_pos hq]
        exact ih.cons q
      · simp only [removeKeep, if_neg hq]
        exact ih.cons₂ q

theorem length_removeKeep_of_some (s : Registry) (k : Nat) (v : Keep)
    (hnd : (s.map Prod.fst).Nodup) (h : lookupKeep s k = some v) :
    (removeKeep s k).length + 1 = s.length := by
  induction s with
  | nil => simp [lookupKeep] at h
  | cons q rest ih =>
      simp only [List.map_cons, List.nodup_cons] at hnd
      by_cases hq : q.1 = k
      · have hnone : lookupKeep rest k = none := by
          cases hlk : lookupKeep rest k with
          | none => rfl
          | some w =>
              exfalso
              have : (k, w) ∈ rest → False := by
                intro hmem
                exact hnd.1 (hq ▸ List.mem_map_of_mem Prod.fst hmem)
              induction rest with
              | nil => simp [lookupKeep] at hlk
              | cons r rr ihr =>
                  by_cases hr : r.1 = k
                  · apply hnd.1
                    rw [hq]
                    exact hr ▸ List.mem_map_of_mem Prod.fst (List.mem_cons_self r rr)
                  · simp only [lookupKeep, if_neg hr] at hlk
                    have hmem := lookupKeep_mem rr k w hlk
                    apply this
                    exact List.mem_cons_of_mem _ hmem
        simp [removeKeep, if_pos hq, removeKeep_eq_self rest k hnone]
      · simp only [lookupKeep, if_neg hq] at h
        simp only [removeKeep, if_neg hq, List.length_cons]
        rw [ih hnd.2 h]

theorem lookupKeep_insertKeep_self (s : Registry) (k : Nat) (v : Keep) :
    lookupKeep (insertKeep s k v) k = some v := by
  simp [insertKeep, lookupKeep]

theorem lookupKeep_insertKeep_ne (s : Registry) (k k2 : Nat) (v : Keep) (h : k2 ≠ k) :
    lookupKeep (insertKeep s k v) k2 = lookupKeep s k2 := by
  have hne : k ≠ k2 := fun hx => h hx.symm
  simp only [insertKeep, lookupKeep, if_neg hne]
  exact lookupKeep_removeKeep_ne s k k2 h

theorem mem_insertKeep (s : Registry) (k : Nat) (v : Keep) (p : Nat × Keep)
    (h : p ∈ insertKeep s k v) : p = (k, v) ∨ p ∈ s := by
  rcases List.mem_cons.mp h with h1 | h1
  · exact Or.inl h1
  · exact Or.inr (mem_removeKeep s k p h1).1

theorem nodup_keys_insertKeep (s : Registry) (k : Nat) (v : Keep)
    (hnd : (s.map Prod.fst).Nodup) : ((insertKeep s k v).map Prod.fst).Nodup := by
  simp only [insertKeep, List.map_cons, List.nodup_cons]
  constructor
  · intro hmem
    rcases List.mem_map.mp hmem with ⟨p, hp, hfst⟩
    exact (mem_removeKeep s k p hp).2 hfst
  · exact hnd.sublist ((removeKeep_sublist s k).map Prod.fst)

/-! ### State lemmas for the handlers and the step relation -/

theorem get_contracts_uuid_snd (u : Nat) (s : Registry) : (get_contracts_uuid u s).2 = s := by
  unfold get_contracts_uuid
  cases CONTRACTS.find? (fun c => c.uuid == u) <;> rfl

theorem get_keeps_uuid_snd (u : Nat) (s : Registry) : (get_keeps_uuid u s).2 = s := by
  unfold get_keeps_uuid
  cases lookupKeep s u <;> rfl

theorem lookupKeep_step_preserve (s : Registry) (a : ServerAction) (k : Nat)
    (h : preservesKeep k a = true) : lookupKeep (step s a) k = lookupKeep s k := by
  cases a with
  | getContracts => rfl
  | getContract u => rw [step, get_contracts_uuid_snd]
  | listKeeps => rfl
  | getKeep u => rw [step, get_keeps_uuid_snd]
  | claim cu f =>
      have hf : f ≠ k := by simpa [preservesKeep] using h
      rw [step]
      unfold post_contracts_uuid
      cases CONTRACTS.find? (fun c => c.uuid == cu) with
      | none => rfl
      | some c =>
          simpa using lookupKeep_insertKeep_ne s f k _ (fun hx => hf hx.symm)
  | deleteKeep u =>
      have hu : u ≠ k := by simpa [preservesKeep] using h
      rw [step]
      unfold delete_keeps_uuid
      cases lookupKeep s u with
      | none => rfl
      | some v =>
          simpa using lookupKeep_removeKeep_ne s u k (fun hx => hu hx.symm)

theorem lookupKeep_steps_preserve (acts : List ServerAction) (s : Registry) (k : Nat)
    (h : ∀ a ∈ acts, preservesKeep k a = true) :
    lookupKeep (steps s acts) k = lookupKeep s k := by
  induction acts generalizing s with
  | nil => rfl
  | cons a rest ih =>
      have hstep := lookupKeep_step_preserve s a k (h a (List.mem_cons_self a rest))
      have hrest : ∀ b ∈ rest, preservesKeep k b = true := by
        intro b hb
        exact h b (List.mem_cons_of_mem a hb)
      simp only [steps, List.foldl_cons]
      rw [show (List.foldl step (step s a) rest) = steps (step s a) rest from rfl, ih _ hrest,
        hstep]

theorem regInv_step (s : Registry) (a : ServerAction) (h : RegInv s) : RegInv (step s a) := by
  cases a with
  | getContracts => exact h
  | getContract u => rw [step, get_contracts_uuid_snd]; exact h
  | listKeeps => exact h
  | getKeep u => rw [step, get_keeps_uuid_snd]; exact h
  | claim cu f =>
      rw [step]
      unfold post_contracts_uuid
      cases hfind : CONTRACTS.find? (fun c => c.uuid == cu) with
      | none => exact h
      | some c =>
          have hc : c ∈ CONTRACTS := List.mem_of_find?_eq_some hfind
          constructor
          · intro p hp
            rcases mem_insertKeep _ _ _ _ hp with h1 | h1
            · subst h1
              exact ⟨rfl, hc⟩
            · exact h.1 p h1
          · exact nodup_keys_insertKeep s f _ h.2
  | deleteKeep u =>
      rw [step]
      unfold delete_keeps_uuid
      cases lookupKeep s u with
      | none => exact h
      | some v =>
          constructor
          · intro p hp
            exact h.1 p (mem_removeKeep s u p hp).1
          · exact h.2.sublist ((removeKeep_sublist s u).map Prod.fst)

theorem reachable_regInv (s : Registry) (h : Reachable s) : RegInv s := by
  induction h with
  | empty => exact ⟨by simp, by simp⟩
  | next s a _ ih => exact regInv_step s a ih

/-! ### Claim theorems -/

/-- C1: for every contract id present in the catalog, `POST /contracts/{id}`
responds 201, grows the registry by exactly one entry, returns as body a
copy of the inserted keep whose contract exactly matches the claimed
catalog contract, and carries a `Location` header `/keeps/{newKeepId}`
built from the returned keep's uuid. -/
theorem contract_claim_creates_exactly_one_keep (s : Registry) (cuuid fresh : Nat) (c : Contract)
    (hc : CONTRACTS.find? (fun x => x.uuid == cuuid) = some c)
    (hf : lookupKeep s fresh = none) :
    (post_contracts_uuid cuuid fresh s).1.status = 201 ∧
    ((post_contracts_uuid cuuid fresh s).2).length = s.length + 1 ∧
    (post_contracts_uuid cuuid fresh s).1.body = Body.keep { uuid := fresh, contract := c } ∧
    lookupKeep ((post_contracts_uuid cuuid fresh s).2) fresh =
      some { uuid := fresh, contract := c } ∧
    c.uuid = cuuid ∧ c ∈ CONTRACTS ∧
    (post_contracts_uuid cuuid fresh s).1.location = some (("/keeps/") ++ uuidStr fresh) := by
  have hmem : c ∈ CONTRACTS := List.mem_of_find?_eq_some hc
  have huuid : c.uuid = cuuid := by
    have := List.find?_some hc
    simpa using this
  unfold post_contracts_uuid
  rw [hc]
  refine ⟨rfl, ?_, rfl, ?_, huuid, hmem, rfl⟩
  · simp [insertKeep, removeKeep_eq_self s fresh hf]
  · exact lookupKeep_insertKeep_self s fresh _

/-- C1 witness: claiming the Nil contract in the empty registry. -/
theorem contract_claim_creates_exactly_one_keep_witness :
    (post_contracts_uuid 0xe6234733513a4883981abfa972fa706b 7 []).1.status = 201 ∧
    ((post_contracts_uuid 0xe6234733513a4883981abfa972fa706b 7 []).2).length = 1 := by
  have h := contract_claim_creates_exactly_one_keep [] 0xe6234733513a4883981abfa972fa706b 7
    { uuid := 0xe6234733513a4883981abfa972fa706b, backend := Backend.Nil } (by decide) rfl
  exact ⟨h.1, h.2.1⟩

/-- C2: for an id absent from the catalog, both `POST /contracts/{id}` and
`GET /contracts/{id}` answer 404 and leave the registry exactly as it
was. -/
theorem unknown_contract_id_rejected (s : Registry) (u fresh : Nat)
    (h : ∀ c ∈ CONTRACTS, c.uuid ≠ u) :
    (post_contracts_uuid u fresh s).1.status = 404 ∧
    (post_contracts_uuid u fresh s).2 = s ∧
    (get_contracts_uuid u s).1.status = 404 ∧
    (get_contracts_uuid u s).2 = s := by
  have hfind : CONTRACTS.find? (fun c => c.uuid == u) = none := by
    rw [List.find?_eq_none]
    intro c hcmem
    simpa using h c hcmem
  unfold post_contracts_uuid get_contracts_uuid
  rw [hfind]
  exact ⟨rfl, rfl, rfl, rfl⟩

/-- C2 witness: id 1 is in no catalog entry. -/
theorem unknown_contract_id_rejected_witness :
    (post_contracts_uuid 1 0 []).1.status = 404 ∧ (get_contracts_uuid 1 []).1.status = 404 := by
  have h := unknown_contract_id_rejected [] 1 0 (by decide)
  exact ⟨h.1, h.2.2.1⟩

/-- C7: in every reachable registry state, each entry's key is its keep's
own uuid and each stored contract is a catalog element; and no two
catalog contracts share a uuid. -/
theorem keep_registry_invariant (s : Registry) (h : Reachable s) :
    (∀ p ∈ s, p.1 = p.2.uuid ∧ p.2.contract ∈ CONTRACTS) ∧
    (CONTRACTS.map (fun c => c.uuid)).Nodup :=
  ⟨(reachable_regInv s h).1, by decide⟩

/-- C7 witness: the state after one claim of the Kvm contract. -/
theorem keep_registry_invariant_witness :
    (∀ p ∈ step [] (ServerAction.claim 0x0afa438eacaa41589518ad59256def34 5),
      p.1 = p.2.uuid ∧ p.2.contract ∈ CONTRACTS) ∧
    (CONTRACTS.map (fun c => c.uuid)).Nodup :=
  keep_registry_invariant _ (Reachable.next [] _ Reachable.empty)

/-- C10: when the freshly generated keep uuid collides with an existing
key, the claim still answers 201, the registry keeps the same size, the
colliding key now stores the new keep, and (when the records differ) the
previous keep is gone from the registry. -/
theorem claim_uuid_collision_overwrites (s : Registry) (cuuid fresh : Nat) (c : Contract)
    (old : Keep)
    (hc : CONTRACTS.find? (fun x => x.uuid == cuuid) = some c)
    (hcol : lookupKeep s fresh = some old)
    (hkeys : ∀ p ∈ s, p.1 = p.2.uuid)
    (hnd : (s.map Prod.fst).Nodup) :
    (post_contracts_uuid cuuid fresh s).1.status = 201 ∧
    ((post_contracts_uuid cuuid fresh s).2).length = s.length ∧
    lookupKeep ((post_contracts_uuid cuuid fresh s).2) fresh =
      some { uuid := fresh, contract := c } ∧
    (old ≠ { uuid := fresh, contract := c } →
      ∀ p ∈ (post_contracts_uuid cuuid fresh s).2, p.2 ≠ old) := by
  have hold : fresh = old.uuid := hkeys (fresh, old) (lookupKeep_mem s fresh old hcol)
  unfold post_contracts_uuid
  rw [hc]
  refine ⟨rfl, ?_, lookupKeep_insertKeep_self s fresh _, ?_⟩
  · simp only [insertKeep, List.length_cons]
    exact length_removeKeep_of_some s fresh old hnd hcol
  · intro hne p hp
    rcases List.mem_cons.mp hp with h1 | h1
    · intro hbad
      apply hne
      rw [← hbad, h1]
    · intro hbad
      rcases mem_removeKeep s fresh p h1 with ⟨hmem, hkey⟩
      apply hkey
      rw [hkeys p hmem, hbad, ← hold]

/-- C10 witness: claiming Nil with generated uuid 7 over a registry
already holding key 7. -/
theorem claim_uuid_collision_overwrites_witness :
    ((post_contracts_uuid 0xe6234733513a4883981abfa972fa706b 7
      ([(7, { uuid := 7, contract := { uuid := 3, backend := Backend.Kvm } })])).2).length = 1 ∧
    (post_contracts_uuid 0xe6234733513a4883981abfa972fa706b 7
      ([(7, { uuid := 7, contract := { uuid := 3, backend := Backend.Kvm } })])).1.status = 201 := by
  have h := claim_uuid_collision_overwrites
    ([(7, { uuid := 7, contract := { uuid := 3, backend := Backend.Kvm } })])
    0xe6234733513a4883981abfa972fa706b 7
    { uuid := 0xe6234733513a4883981abfa972fa706b, backend := Backend.Nil }
    { uuid := 7, contract := { uuid := 3, backend := Backend.Kvm } }
    (by decide) (by decide) (by decide) (by decide)
  exact ⟨h.2.1, h.1⟩

/-- C3: in any reachable state, `DELETE /keeps/{id}` on a present id
answers a bare 200 and removes exactly that entry (that key gone, every
other key untouched, length down by one); an immediate second delete of
the same id answers 404 and changes nothing, and the id no longer occurs
among the keeps listed by `GET /keeps`.  On an absent id it answers 404
and changes nothing. -/
theorem delete_is_exclusive_and_final (s : Registry) (k : Nat) (hr : Reachable s) :
    ((lookupKeep s k).isSome = true →
      (delete_keeps_uuid k s).1.status = 200 ∧
      (delete_keeps_uuid k s).1.body = Body.empty ∧
      lookupKeep ((delete_keeps_uuid k s).2) k = none ∧
      (∀ k2, k2 ≠ k → lookupKeep ((delete_keeps_uuid k s).2) k2 = lookupKeep s k2) ∧
      ((delete_keeps_uuid k s).2).length + 1 = s.length ∧
      (delete_keeps_uuid k ((delete_keeps_uuid k s).2)).1.status = 404 ∧
      (delete_keeps_uuid k ((delete_keeps_uuid k s).2)).2 = (delete_keeps_uuid k s).2 ∧
      (∀ kp ∈ ((delete_keeps_uuid k s).2).map Prod.snd, kp.uuid ≠ k)) ∧
    ((lookupKeep s k).isSome = false →
      (delete_keeps_uuid k s).1.status = 404 ∧ (delete_keeps_uuid k s).2 = s) := by
  obtain ⟨hkeys, hnd⟩ := reachable_regInv s hr
  constructor
  · intro hsome
    cases hl : lookupKeep s k with
    | none => rw [hl] at hsome; simp at hsome
    | some v =>
        simp only [delete_keeps_uuid, hl]
        refine ⟨rfl, rfl, lookupKeep_removeKeep_self s k, ?_, ?_, ?_, ?_, ?_⟩
        · intro k2 hk2
          exact lookupKeep_removeKeep_ne s k k2 hk2
        · exact length_removeKeep_of_some s k v hnd hl
        · simp [delete_keeps_uuid, lookupKeep_removeKeep_self s k, error]
        · simp [delete_keeps_uuid, lookupKeep_removeKeep_self s k]
        · intro kp hkp
          rcases List.mem_map.mp hkp with ⟨p, hp, hsnd⟩
          rcases mem_removeKeep s k p hp with ⟨hmem, hkey⟩
          intro hbad
          apply hkey
          rw [(hkeys p hmem).1, hsnd, hbad]
  · intro hnone
    cases hl : lookupKeep s k with
    | some v => rw [hl] at hnone; simp at hnone
    | none =>
        simp [delete_keeps_uuid, hl, error]

/-- C3 witness: deleting keep 7 right after it was claimed. -/
theorem delete_is_exclusive_and_final_witness :
    (delete_keeps_uuid 7 (step [] (ServerAction.claim 0xe6234733513a4883981abfa972fa706b 7))).1.status = 200 ∧
    (delete_keeps_uuid 7
      ((delete_keeps_uuid 7
        (step [] (ServerAction.claim 0xe6234733513a4883981abfa972fa706b 7))).2)).1.status = 404 := by
  have h := delete_is_exclusive_and_final
    (step [] (ServerAction.claim 0xe6234733513a4883981abfa972fa706b 7)) 7
    (Reachable.next [] _ Reachable.empty)
  have h2 := h.1 (by decide)
  exact ⟨h2.1, h2.2.2.2.2.2.1⟩

/-- C4: the keep minted by a claim is returned unchanged by
`GET /keeps/{id}` after any further operations that neither delete that
id nor claim with a colliding generated uuid: status 200 and a body equal
to the claim response's body. -/
theorem keep_roundtrip_identity (s : Registry) (cuuid fresh : Nat) (c : Contract)
    (acts : List ServerAction)
    (hc : CONTRACTS.find? (fun x => x.uuid == cuuid) = some c)
    (hacts : ∀ a ∈ acts, preservesKeep fresh a = true) :
    (post_contracts_uuid cuuid fresh s).1.body = Body.keep { uuid := fresh, contract := c } ∧
    (get_keeps_uuid fresh (steps ((post_contracts_uuid cuuid fresh s).2) acts)).1.status = 200 ∧
    (get_keeps_uuid fresh (steps ((post_contracts_uuid cuuid fresh s).2) acts)).1.body =
      Body.keep { uuid := fresh, contract := c } := by
  have hpost : (post_contracts_uuid cuuid fresh s).2 =
      insertKeep s fresh { uuid := fresh, contract := c } := by
    unfold post_contracts_uuid
    rw [hc]
  have hbody : (post_contracts_uuid cuuid fresh s).1.body =
      Body.keep { uuid := fresh, contract := c } := by
    unfold post_contracts_uuid
    rw [hc]
  have hlook : lookupKeep (steps ((post_contracts_uuid cuuid fresh s).2) acts) fresh =
      some { uuid := fresh, contract := c } := by
    rw [hpost, lookupKeep_steps_preserve acts _ fresh hacts, lookupKeep_insertKeep_self]
  refine ⟨hbody, ?_, ?_⟩ <;> simp only [get_keeps_uuid, hlook]

/-- C4 witness: claim Nil as keep 7, delete an unrelated id, claim Sev as
keep 8, then fetch keep 7. -/
theorem keep_roundtrip_identity_witness :
    (get_keeps_uuid 7 (steps ((post_contracts_uuid 0xe6234733513a4883981abfa972fa706b 7 []).2)
      ([ServerAction.deleteKeep 9,
        ServerAction.claim 0x31a41b53cb9e447bbfa2bfb8e6e42ff9 8]))).1.body =
      Body.keep ⟨7, ⟨0xe6234733513a4883981abfa972fa706b, Backend.Nil⟩⟩ := by
  have h := keep_roundtrip_identity [] 0xe6234733513a4883981abfa972fa706b 7
    { uuid := 0xe6234733513a4883981abfa972fa706b, backend := Backend.Nil }
    ([ServerAction.deleteKeep 9, ServerAction.claim 0x31a41b53cb9e447bbfa2bfb8e6e42ff9 8])
    (by decide) (by decide)
  exact h.2.2

/-- C6: every success response of the five body-carrying routes carries
`Content-Type: application/cbor`, and the client's `check_header` rejects
(with `InvalidHeaderValue`, before any decode) every response whose
`Content-Type` differs from that exact string. -/
theorem responses_tagged_cbor_and_client_verifies (s : Registry) (u fresh : Nat) :
    (get_contracts s).1.contentType = some ("application/cbor") ∧
    ((get_contracts_uuid u s).1.status = 200 →
      (get_contracts_uuid u s).1.contentType = some ("application/cbor")) ∧
    ((post_contracts_uuid u fresh s).1.status = 201 →
      (post_contracts_uuid u fresh s).1.contentType = some ("application/cbor")) ∧
    (get_keeps s).1.contentType = some ("application/cbor") ∧
    ((get_keeps_uuid u s).1.status = 200 →
      (get_keeps_uuid u s).1.contentType = some ("application/cbor")) ∧
    (∀ got : Option String, got ≠ some ("application/cbor") →
      check_header got ("application/cbor") =
        CheckResult.rejected ClientError.invalidHeaderValue) := by
  refine ⟨rfl, ?_, ?_, rfl, ?_, ?_⟩
  · unfold get_contracts_uuid
    cases CONTRACTS.find? (fun c => c.uuid == u) with
    | none => intro h; simp [error] at h
    | some c => intro _; rfl
  · unfold post_contracts_uuid
    cases CONTRACTS.find? (fun c => c.uuid == u) with
    | none => intro h; simp [error] at h
    | some c => intro _; rfl
  · unfold get_keeps_uuid
    cases lookupKeep s u with
    | none => intro h; simp [error] at h
    | some v => intro _; rfl
  · intro got hgot
    simp [check_header, hgot]

/-- C6 witness: the catalog response is tagged, and a JSON-tagged
response is refused. -/
theorem responses_tagged_cbor_and_client_verifies_witness :
    (get_contracts []).1.contentType = some ("application/cbor") ∧
    check_header (some ("application/json")) ("application/cbor") =
      CheckResult.rejected ClientError.invalidHeaderValue := by
  refine ⟨(responses_tagged_cbor_and_client_verifies [] 0 0).1, ?_⟩
  exact (responses_tagged_cbor_and_client_verifies [] 0 0).2.2.2.2.2
    (some ("application/json")) (by decide)

/-- C9 counterexample: the claimed reader discipline is false on the
code, because `get_keeps_uuid` takes the write guard (line 154) and
serializes while holding it. -/
theorem reader_discipline_claim_refuted : ¬ readerDisciplineClaim := by
  intro h
  have h2 := h.2.1
  simp [registryAccess] at h2

/-- C9 as amended: `get_keeps` takes only the shared read guard and
serializes after releasing it; `get_keeps_uuid` takes the exclusive write
guard and serializes while holding it; claim and delete take the write
guard and serialize (or finish) outside it; the contract handlers never
touch the registry lock. -/
theorem registry_lock_discipline :
    registryAccess HandlerId.getKeepsH =
      some { acq := LockAcq.readLock, encodeUnderLock := false } ∧
    registryAccess HandlerId.getKeepsUuidH =
      some { acq := LockAcq.writeLock, encodeUnderLock := true } ∧
    registryAccess HandlerId.postContractsUuidH =
      some { acq := LockAcq.writeLock, encodeUnderLock := false } ∧
    registryAccess HandlerId.deleteKeepsUuidH =
      some { acq := LockAcq.writeLock, encodeUnderLock := false } ∧
    registryAccess HandlerId.getContractsH = none ∧
    registryAccess HandlerId.getContractsUuidH = none :=
  ⟨rfl, rfl, rfl, rfl, rfl, rfl⟩

/-- C8 counterexample: `"-1"` parses as a `RawFd` (`i32`), so the code
takes the inherited-descriptor branch and fails with `InvalidInput` when
`getsockname` fails, whereas the claim (no small non-negative integer,
no leading `/`) prescribes binding a new TCP listener at `"-1"`. -/
theorem listener_resolution_claim_refuted :
    listener_from_str sysApi0 ("-1") = ResolveResult.err IoErr.invalidInput ∧
    resolverClaim sysApi0 ("-1") = ResolveResult.ok (Listener.tcpL (SockOrigin.bound ("-1"))) ∧
    listener_from_str sysApi0 ("-1") ≠ resolverClaim sysApi0 ("-1") := by
  refine ⟨rfl, rfl, ?_⟩
  decide

/-- C8 as amended: the resolver behaves exactly as claimed except that
the inherited-descriptor branch is taken for every string parsing as a
SIGNED 32-bit integer; in particular the outcome is always exactly one
of a Unix listener, a TCP listener, or a failure. -/
theorem listener_resolution_cases (api : SysApi) (s : String) :
    listener_from_str api s = resolverAmended api s := by
  cases h : parseI32 s with
  | none => simp only [listener_from_str, resolverAmended, h]
  | some fd =>
      simp only [listener_from_str, resolverAmended, h]
      cases h2 : api.getsocknameK fd with
      | none => rfl
      | some k => cases k <;> rfl

/-! ### Router analysis -/

theorem RouteOutcome.result?_eq_none (o : RouteOutcome) (h : o.isHandled = false) :
    o.result? = none := by
  cases o with
  | handled r => simp [RouteOutcome.isHandled] at h
  | pathMismatch => rfl
  | methodMismatch => rfl

theorem get_contracts_uuid_status (u : Nat) (s : Registry) :
    (get_contracts_uuid u s).1.status = 200 ∨ (get_contracts_uuid u s).1.status = 404 := by
  unfold get_contracts_uuid
  cases CONTRACTS.find? (fun c => c.uuid == u) with
  | none => exact Or.inr rfl
  | some c => exact Or.inl rfl

theorem post_contracts_uuid_status (u fresh : Nat) (s : Registry) :
    (post_contracts_uuid u fresh s).1.status = 201 ∨
    (post_contracts_uuid u fresh s).1.status = 404 := by
  unfold post_contracts_uuid
  cases CONTRACTS.find? (fun c => c.uuid == u) with
  | none => exact Or.inr rfl
  | some c => exact Or.inl rfl

theorem get_keeps_uuid_status (u : Nat) (s : Registry) :
    (get_keeps_uuid u s).1.status = 200 ∨ (get_keeps_uuid u s).1.status = 404 := by
  unfold get_keeps_uuid
  cases lookupKeep s u with
  | none => exact Or.inr rfl
  | some v => exact Or.inl rfl

theorem delete_keeps_uuid_status (u : Nat) (s : Registry) :
    (delete_keeps_uuid u s).1.status = 200 ∨ (delete_keeps_uuid u s).1.status = 404 := by
  unfold delete_keeps_uuid
  cases lookupKeep s u with
  | none => exact Or.inr rfl
  | some v => exact Or.inl rfl

theorem routeGetContracts_cases (m : Method) (segs : List String) (s : Registry) :
    routeGetContracts m segs s = RouteOutcome.pathMismatch ∨
    routeGetContracts m segs s = RouteOutcome.methodMismatch ∨
    routeGetContracts m segs s = RouteOutcome.handled (get_contracts s) := by
  rcases segs with _ | ⟨seg, _ | ⟨seg2, rest⟩⟩
  · exact Or.inl (by simp [routeGetContracts])
  · by_cases h1 : seg = ("contracts")
    · by_cases h2 : m = Method.get
      · exact Or.inr (Or.inr (by simp [routeGetContracts, h1, h2]))
      · exact Or.inr (Or.inl (by simp [routeGetContracts, h1, h2]))
    · exact Or.inl (by simp [routeGetContracts, h1])
  · exact Or.inl (by simp [routeGetContracts])

theorem routeGetContractsUuid_cases (m : Method) (segs : List String) (s : Registry) :
    routeGetContractsUuid m segs s = RouteOutcome.pathMismatch ∨
    routeGetContractsUuid m segs s = RouteOutcome.methodMismatch ∨
    ∃ u, routeGetContractsUuid m segs s = RouteOutcome.handled (get_contracts_uuid u s) := by
  rcases segs with _ | ⟨seg0, _ | ⟨seg1, _ | ⟨seg2, rest⟩⟩⟩
  · exact Or.inl (by simp [routeGetContractsUuid])
  · exact Or.inl (by simp [routeGetContractsUuid])
  · by_cases h1 : seg0 = ("contracts")
    · cases hp : parseUuid seg1 with
      | none => exact Or.inl (by simp [routeGetContractsUuid, h1, hp])
      | some u =>
          by_cases h2 : m = Method.get
          · exact Or.inr (Or.inr ⟨u, by simp [routeGetContractsUuid, h1, hp, h2]⟩)
          · exact Or.inr (Or.inl (by simp [routeGetContractsUuid, h1, hp, h2]))
    · exact Or.inl (by simp [routeGetContractsUuid, h1])
  · exact Or.inl (by simp [routeGetContractsUuid])

theorem routePostContractsUuid_cases (m : Method) (segs : List String) (fresh : Nat)
    (s : Registry) :
    routePostContractsUuid m segs fresh s = RouteOutcome.pathMismatch ∨
    routePostContractsUuid m segs fresh s = RouteOutcome.methodMismatch ∨
    ∃ u, routePostContractsUuid m segs fresh s =
      RouteOutcome.handled (post_contracts_uuid u fresh s) := by
  rcases segs with _ | ⟨seg0, _ | ⟨seg1, _ | ⟨seg2, rest⟩⟩⟩
  · exact Or.inl (by simp [routePostContractsUuid])
  · exact Or.inl (by simp [routePostContractsUuid])
  · by_cases h1 : seg0 = ("contracts")
    · cases hp : parseUuid seg1 with
      | none => exact Or.inl (by simp [routePostContractsUuid, h1, hp])
      | some u =>
          by_cases h2 : m = Method.post
          · exact Or.inr (Or.inr ⟨u, by simp [routePostContractsUuid, h1, hp, h2]⟩)
          · exact Or.inr (Or.inl (by simp [routePostContractsUuid, h1, hp, h2]))
    · exact Or.inl (by simp [routePostContractsUuid, h1])
  · exact Or.inl (by simp [routePostContractsUuid])

theorem routeGetKeeps_cases (m : Method) (segs : List String) (s : Registry) :
    routeGetKeeps m segs s = RouteOutcome.pathMismatch ∨
    routeGetKeeps m segs s = RouteOutcome.methodMismatch ∨
    routeGetKeeps m segs s = RouteOutcome.handled (get_keeps s) := by
  rcases segs with _ | ⟨seg, _ | ⟨seg2, rest⟩⟩
  · exact Or.inl (by simp [routeGetKeeps])
  · by_cases h1 : seg = ("keeps")
    · by_cases h2 : m = Method.get
      · exact Or.inr (Or.inr (by simp [routeGetKeeps, h1, h2]))
      · exact Or.inr (Or.inl (by simp [routeGetKeeps, h1, h2]))
    · exact Or.inl (by simp [routeGetKeeps, h1])
  · exact Or.inl (by simp [routeGetKeeps])

theorem routeGetKeepsUuid_cases (m : Method) (segs : List String) (s : Registry) :
    routeGetKeepsUuid m segs s = RouteOutcome.pathMismatch ∨
    routeGetKeepsUuid m segs s = RouteOutcome.methodMismatch ∨
    ∃ u, routeGetKeepsUuid m segs s = RouteOutcome.handled (get_keeps_uuid u s) := by
  rcases segs with _ | ⟨seg0, _ | ⟨seg1, _ | ⟨seg2, rest⟩⟩⟩
  · exact Or.inl (by simp [routeGetKeepsUuid])
  · exact Or.inl (by simp [routeGetKeepsUuid])
  · by_cases h1 : seg0 = ("keeps")
    · cases hp : parseUuid seg1 with
      | none => exact Or.inl (by simp [routeGetKeepsUuid, h1, hp])
      | some u =>
          by_cases h2 : m = Method.get
          · exact Or.inr (Or.inr ⟨u, by simp [routeGetKeepsUuid, h1, hp, h2]⟩)
          · exact Or.inr (Or.inl (by simp [routeGetKeepsUuid, h1, hp, h2]))
    · exact Or.inl (by simp [routeGetKeepsUuid, h1])
  · exact Or.inl (by simp [routeGetKeepsUuid])

theorem routeDeleteKeepsUuid_cases (m : Method) (segs : List String) (s : Registry) :
    routeDeleteKeepsUuid m segs s = RouteOutcome.pathMismatch ∨
    routeDeleteKeepsUuid m segs s = RouteOutcome.methodMismatch ∨
    ∃ u, routeDeleteKeepsUuid m segs s = RouteOutcome.handled (delete_keeps_uuid u s) := by
  rcases segs with _ | ⟨seg0, _ | ⟨seg1, _ | ⟨seg2, rest⟩⟩⟩
  · exact Or.inl (by simp [routeDeleteKeepsUuid])
  · exact Or.inl (by simp [routeDeleteKeepsUuid])
  · by_cases h1 : seg0 = ("keeps")
    · cases hp : parseUuid seg1 with
      | none => exact Or.inl (by simp [routeDeleteKeepsUuid, h1, hp])
      | some u =>
          by_cases h2 : m = Method.delete
          · exact Or.inr (Or.inr ⟨u, by simp [routeDeleteKeepsUuid, h1, hp, h2]⟩)
          · exact Or.inr (Or.inl (by simp [routeDeleteKeepsUuid, h1, hp, h2]))
    · exact Or.inl (by simp [routeDeleteKeepsUuid, h1])
  · exact Or.inl (by simp [routeDeleteKeepsUuid])

theorem handled_result_status (m : Method) (segs : List String) (fresh : Nat) (s : Registry)
    (o : RouteOutcome) (ho : o ∈ routeOutcomes m segs fresh s)
    (r : HttpResponse × Registry) (h : o.result? = some r) :
    r.1.status = 200 ∨ r.1.status = 201 ∨ r.1.status = 404 := by
  have hcase : o = routeGetContracts m segs s ∨ o = routeGetContractsUuid m segs s ∨
      o = routePostContractsUuid m segs fresh s ∨ o = routeGetKeeps m segs s ∨
      o = routeGetKeepsUuid m segs s ∨ o = routeDeleteKeepsUuid m segs s := by
    simpa [routeOutcomes] using ho
  rcases hcase with hc | hc | hc | hc | hc | hc
  · rcases routeGetContracts_cases m segs s with he | he | he <;> rw [hc, he] at h
    · simp [RouteOutcome.result?] at h
    · simp [RouteOutcome.result?] at h
    · simp only [RouteOutcome.result?, Option.some.injEq] at h
      rw [← h]
      exact Or.inl rfl
  · rcases routeGetContractsUuid_cases m segs s with he | he | he
    · rw [hc, he] at h
      simp [RouteOutcome.result?] at h
    · rw [hc, he] at h
      simp [RouteOutcome.result?] at h
    · obtain ⟨u, he⟩ := he
      rw [hc, he] at h
      simp only [RouteOutcome.result?, Option.some.injEq] at h
      rw [← h]
      rcases get_contracts_uuid_status u s with hs | hs
      · exact Or.inl hs
      · exact Or.inr (Or.inr hs)
  · rcases routePostContractsUuid_cases m segs fresh s with he | he | he
    · rw [hc, he] at h
      simp [RouteOutcome.result?] at h
    · rw [hc, he] at h
      simp [RouteOutcome.result?] at h
    · obtain ⟨u, he⟩ := he
      rw [hc, he] at h
      simp only [RouteOutcome.result?, Option.some.injEq] at h
      rw [← h]
      rcases post_contracts_uuid_status u fresh s with hs | hs
      · exact Or.inr (Or.inl hs)
      · exact Or.inr (Or.inr hs)
  · rcases routeGetKeeps_cases m segs s with he | he | he <;> rw [hc, he] at h
    · simp [RouteOutcome.result?] at h
    · simp [RouteOutcome.result?] at h
    · simp only [RouteOutcome.result?, Option.some.injEq] at h
      rw [← h]
      exact Or.inl rfl
  · rcases routeGetKeepsUuid_cases m segs s with he | he | he
    · rw [hc, he] at h
      simp [RouteOutcome.result?] at h
    · rw [hc, he] at h
      simp [RouteOutcome.result?] at h
    · obtain ⟨u, he⟩ := he
      rw [hc, he] at h
      simp only [RouteOutcome.result?, Option.some.injEq] at h
      rw [← h]
      rcases get_keeps_uuid_status u s with hs | hs
      · exact Or.inl hs
      · exact Or.inr (Or.inr hs)
  · rcases routeDeleteKeepsUuid_cases m segs s with he | he | he
    · rw [hc, he] at h
      simp [RouteOutcome.result?] at h
    · rw [hc, he] at h
      simp [RouteOutcome.result?] at h
    · obtain ⟨u, he⟩ := he
      rw [hc, he] at h
      simp only [RouteOutcome.result?, Option.some.injEq] at h
      rw [← h]
      rcases delete_keeps_uuid_status u s with hs | hs
      · exact Or.inl hs
      · exact Or.inr (Or.inr hs)

theorem dispatch_status (m : Method) (segs : List String) (fresh : Nat) (s : Registry) :
    (dispatch m segs fresh s).1.status = 200 ∨ (dispatch m segs fresh s).1.status = 201 ∨
    (dispatch m segs fresh s).1.status = 404 ∨ (dispatch m segs fresh s).1.status = 405 := by
  unfold dispatch
  cases hfind : (routeOutcomes m segs fresh s).findSome? RouteOutcome.result? with
  | none =>
      by_cases hmm : (routeOutcomes m segs fresh s).any RouteOutcome.isMM
      · simp [hmm, error]
      · simp [hmm, error]
  | some r =>
      obtain ⟨o, ho, hres⟩ := List.exists_of_findSome?_eq_some hfind
      show r.1.status = 200 ∨ r.1.status = 201 ∨ r.1.status = 404 ∨ r.1.status = 405
      rcases handled_result_status m segs fresh s o ho r hres with hs | hs | hs
      · exact Or.inl hs
      · exact Or.inr (Or.inl hs)
      · exact Or.inr (Or.inr (Or.inl hs))

/-- C5 counterexample: `PUT /keeps/{id}` with a parseable uuid matches
the `keeps`/uuid paths but no method filter, and warp's rejection
preference answers 405 Method Not Allowed, not the claimed 404. -/
theorem put_on_keep_id_answers_405 :
    (dispatch Method.put ([("keeps"), ("00000000000000000000000000000000")]) 0 []).1.status =
      405 := by
  decide

/-- C5 as amended: every response status is one of 200, 201, 404 and 405
(so in particular never 400); a request matching no route's path —
including one whose id segment fails to parse as a uuid — gets the plain
404 with the registry unchanged; and a request whose path matches some
route but whose method matches none gets 405 with the registry
unchanged. -/
theorem unmatched_requests_collapse (m : Method) (segs : List String) (fresh : Nat)
    (s : Registry) :
    ((dispatch m segs fresh s).1.status = 200 ∨ (dispatch m segs fresh s).1.status = 201 ∨
      (dispatch m segs fresh s).1.status = 404 ∨ (dispatch m segs fresh s).1.status = 405) ∧
    (dispatch m segs fresh s).1.status ≠ 400 ∧
    ((∀ o ∈ routeOutcomes m segs fresh s, o = RouteOutcome.pathMismatch) →
      dispatch m segs fresh s = (error 404, s)) ∧
    ((∀ o ∈ routeOutcomes m segs fresh s, o.isHandled = false) →
      (∃ o ∈ routeOutcomes m segs fresh s, o.isMM = true) →
      dispatch m segs fresh s = (error 405, s)) := by
  refine ⟨dispatch_status m segs fresh s, ?_, ?_, ?_⟩
  · rcases dispatch_status m segs fresh s with h | h | h | h <;> omega
  · intro hall
    have hnone2 : (routeOutcomes m segs fresh s).findSome? RouteOutcome.result? = none := by
      rw [List.findSome?_eq_none_iff]
      intro o ho
      rw [hall o ho]
      rfl
    have hmm2 : (routeOutcomes m segs fresh s).any RouteOutcome.isMM = false := by
      rw [List.any_eq_false]
      intro o ho
      rw [hall o ho]
      simp [RouteOutcome.isMM]
    simp [dispatch, hnone2, hmm2]
  · intro hnh hex
    have hnone2 : (routeOutcomes m segs fresh s).findSome? RouteOutcome.result? = none := by
      rw [List.findSome?_eq_none_iff]
      intro o ho
      exact RouteOutcome.result?_eq_none o (hnh o ho)
    have hmm2 : (routeOutcomes m segs fresh s).any RouteOutcome.isMM = true :=
      List.any_eq_true.mpr hex
    simp [dispatch, hnone2, hmm2]

/-- C5 witness: an unknown path collapses to 404; `PUT /keeps` (a known
path, unhandled method) collapses to 405. -/
theorem unmatched_requests_collapse_witness :
    dispatch Method.put ([("foo")]) 0 [] = (error 404, []) ∧
    dispatch Method.put ([("keeps")]) 0 [] = (error 405, []) := by
  constructor
  · exact (unmatched_requests_collapse Method.put ([("foo")]) 0 []).2.2.1 (by decide)
  · exact (unmatched_requests_collapse Method.put ([("keeps")]) 0 []).2.2.2 (by decide)
      (by decide)
